import Mathlib

/-!
Verification of the `DoubaoTiku` answer client (`src/api/tiku.py`,
deduplicated with `src/api/answer.py`).

The development shallowly embeds the Python code: strings are `String`
(lists of unicode scalars), wall-clock time and float arithmetic on it are
modelled by `ℚ`, fallible Python code returns `Option`/`Except`, and the
remote gateway is an explicit function argument.  Every definition follows
the corresponding Python source line by line; library calls
(`str.strip`, `str.replace`, `json.loads`, `configparser`) are modelled by
executable Lean functions that follow the documented CPython semantics.
-/

/-! ## Python string primitives -/

/-- Characters for which Python's `str.isspace()` is true; `str.strip()`
removes exactly these from both ends.  Note this is a strictly larger set
than JSON whitespace (it includes `\x0b`, `\x0c`, the C1 separators,
`\x85`, NBSP and the Unicode space category). -/
def isPyWs (c : Char) : Bool :=
  c = ' ' || c = '\t' || c = '\n' || c = '\r' || c = '\x0b' || c = '\x0c' ||
  c = '\x1c' || c = '\x1d' || c = '\x1e' || c = '\x1f' ||
  c = '\x85' || c = '\xa0' || c = '\u1680' ||
  ('\u2000' ≤ c && c ≤ '\u200A') ||
  c = '\u2028' || c = '\u2029' || c = '\u202F' || c = '\u205F' || c = '\u3000'

/-- Python `str.strip()` on a character list: drop `isPyWs` characters from
both ends. -/
def pyStripL (l : List Char) : List Char :=
  ((l.dropWhile isPyWs).reverse.dropWhile isPyWs).reverse

/-- Python `str.strip()`. -/
def pyStrip (s : String) : String :=
  String.mk (pyStripL s.data)

/-- Helper for Python `str.replace`: scan the input; while the skip
counter is positive the character was already consumed by an earlier
match and is dropped; at zero, a pattern match emits the replacement and
skips the rest of the pattern, otherwise the character is kept. -/
def replaceAllAux (pat rep : List Char) : List Char → Nat → List Char
  | [], _ => []
  | _ :: cs, k + 1 => replaceAllAux pat rep cs k
  | c :: cs, 0 =>
    if pat.isPrefixOf (c :: cs) then rep ++ replaceAllAux pat rep cs (pat.length - 1)
    else c :: replaceAllAux pat rep cs 0

/-- Python `str.replace(pat, rep)` (for the nonempty patterns the client
uses): replace every non-overlapping occurrence of `pat`, scanning left
to right. -/
def replaceAll (pat rep l : List Char) : List Char :=
  replaceAllAux pat rep l 0

/-- Python's substring test `needle in hay` on character lists. -/
def listContainsSub (needle : List Char) : List Char → Bool
  | [] => needle.isEmpty
  | c :: cs => needle.isPrefixOf (c :: cs) || listContainsSub needle cs

/-- Python's substring test `needle in hay` on strings. -/
def pyIn (needle hay : String) : Bool :=
  listContainsSub needle.data hay.data

/-! ## A model of `json.loads`

Follows CPython's pure-python `json` decoder: JSON whitespace is only
space/tab/LF/CR; numbers follow the JSON grammar (plus the CPython
extensions `NaN`, `Infinity`, `-Infinity`) and are kept as their raw text;
strings support the standard escapes and `\uXXXX` with surrogate-pair
combination (a lone surrogate, which CPython would keep as-is, is mapped
to U+FFFD since Lean characters are unicode scalars); object keys keep the
last duplicate, as a Python dict does. -/

/-- JSON values as produced by `json.loads`; numbers keep their raw text. -/
inductive Json where
  | null : Json
  | bool (b : Bool) : Json
  | num (raw : String) : Json
  | str (s : String) : Json
  | arr (elems : List Json) : Json
  | obj (fields : List (String × Json)) : Json

/-- JSON whitespace (the only characters `json.loads` skips between
tokens). -/
def jsonWsB (c : Char) : Bool :=
  c = ' ' || c = '\t' || c = '\n' || c = '\r'

/-- Skip JSON whitespace. -/
def jsonSkipWs (l : List Char) : List Char :=
  l.dropWhile jsonWsB

/-- Value of a hexadecimal digit. -/
def hexDigitVal (c : Char) : Option Nat :=
  if '0' ≤ c ∧ c ≤ '9' then some (c.toNat - 48)
  else if 'a' ≤ c ∧ c ≤ 'f' then some (c.toNat - 87)
  else if 'A' ≤ c ∧ c ≤ 'F' then some (c.toNat - 55)
  else none

/-- Single-character JSON escapes. -/
def simpleEscape (c : Char) : Option Char :=
  if c = '"' then some '"'
  else if c = '\\' then some '\\'
  else if c = '/' then some '/'
  else if c = 'b' then some '\x08'
  else if c = 'f' then some '\x0c'
  else if c = 'n' then some '\n'
  else if c = 'r' then some '\r'
  else if c = 't' then some '\t'
  else none

/-- Decode four hexadecimal digits. -/
def hex4 (a b c d : Char) : Option Nat :=
  match hexDigitVal a, hexDigitVal b, hexDigitVal c, hexDigitVal d with
  | some x, some y, some z, some w => some (((x * 16 + y) * 16 + z) * 16 + w)
  | _, _, _, _ => none

mutual

/-- Parse the body of a JSON string, after the opening quote: returns the
decoded characters and the input after the closing quote.  Raw control
characters are rejected (`json.loads` runs in strict mode).  `fuel` only
bounds the recursion; every step consumes input, so any fuel above the
input length is sufficient. -/
def parseStringBodyF : Nat → List Char → Option (List Char × List Char)
  | 0, _ => none
  | _ + 1, [] => none
  | fuel + 1, c :: rest =>
    if c = '"' then some ([], rest)
    else if c = '\\' then parseEscapeSeqF fuel rest
    else if c.toNat < 32 then none
    else (parseStringBodyF fuel rest).map (fun p => (c :: p.1, p.2))

/-- Parse one escape sequence (the input starts after the backslash) and
the remainder of the string body.  Mirrors CPython's py_scanstring:
after a high surrogate followed by the two characters backslash-u, the
second hex quadruple is decoded unconditionally (invalid hex raises); it
is combined only when it is a low surrogate, otherwise the lone surrogate
(which Lean cannot represent) becomes U+FFFD and the second escape is
reparsed on its own. -/
def parseEscapeSeqF : Nat → List Char → Option (List Char × List Char)
  | 0, _ => none
  | fuel + 1, 'u' :: h1 :: h2 :: h3 :: h4 :: '\\' :: 'u' :: g1 :: g2 :: g3 :: g4 :: r2 =>
    match hex4 h1 h2 h3 h4 with
    | none => none
    | some n =>
      if 0xD800 ≤ n ∧ n ≤ 0xDBFF then
        match hex4 g1 g2 g3 g4 with
        | none => none
        | some m =>
          if 0xDC00 ≤ m ∧ m ≤ 0xDFFF then
            (parseStringBodyF fuel r2).map
              (fun p => (Char.ofNat (0x10000 + (n - 0xD800) * 0x400 + (m - 0xDC00)) :: p.1, p.2))
          else
            (parseStringBodyF fuel ('\\' :: 'u' :: g1 :: g2 :: g3 :: g4 :: r2)).map
              (fun p => ('\uFFFD' :: p.1, p.2))
      else
        (parseStringBodyF fuel ('\\' :: 'u' :: g1 :: g2 :: g3 :: g4 :: r2)).map
          (fun p => ((if 0xDC00 ≤ n ∧ n ≤ 0xDFFF then '\uFFFD' else Char.ofNat n) :: p.1, p.2))
  | fuel + 1, 'u' :: h1 :: h2 :: h3 :: h4 :: r =>
    match hex4 h1 h2 h3 h4 with
    | none => none
    | some n =>
      (parseStringBodyF fuel r).map
        (fun p => ((if 0xD800 ≤ n ∧ n ≤ 0xDFFF then '\uFFFD' else Char.ofNat n) :: p.1, p.2))
  | fuel + 1, c :: r =>
    match simpleEscape c with
    | some d => (parseStringBodyF fuel r).map (fun p => (d :: p.1, p.2))
    | none => none
  | _ + 1, [] => none

end

/-- Parse a JSON number token (the regex CPython uses): returns the raw
matched text and the rest.  Optional groups that fail simply end the
token, as with a regex. -/
def parseNumberTok (l : List Char) : Option (List Char × List Char) :=
  let (sgn, l1) : List Char × List Char :=
    match l with
    | '-' :: r => (['-'], r)
    | _ => ([], l)
  match l1 with
  | '0' :: r => some (sgn ++ ['0'], r)
  | c :: r =>
    if c.isDigit then
      some (sgn ++ (c :: r.takeWhile Char.isDigit), r.dropWhile Char.isDigit)
    else none
  | [] => none

/-- Extend a parsed integer part with an optional fraction part. -/
def withFracPart (raw rest : List Char) : List Char × List Char :=
  match rest with
  | '.' :: r2 =>
    let ds := r2.takeWhile Char.isDigit
    if ds.isEmpty then (raw, rest)
    else (raw ++ '.' :: ds, r2.dropWhile Char.isDigit)
  | _ => (raw, rest)

/-- Extend a parsed number with an optional exponent part. -/
def withExpPart (raw rest : List Char) : List Char × List Char :=
  match rest with
  | e :: r2 =>
    if e = 'e' ∨ e = 'E' then
      match r2 with
      | s :: r3 =>
        if s = '+' ∨ s = '-' then
          let ds := r3.takeWhile Char.isDigit
          if ds.isEmpty then (raw, rest)
          else (raw ++ e :: s :: ds, r3.dropWhile Char.isDigit)
        else
          let ds := r2.takeWhile Char.isDigit
          if ds.isEmpty then (raw, rest)
          else (raw ++ e :: ds, r2.dropWhile Char.isDigit)
      | [] => (raw, rest)
    else (raw, rest)
  | [] => (raw, rest)

/-- Parse a complete JSON number. -/
def parseNumber (l : List Char) : Option (List Char × List Char) :=
  match parseNumberTok l with
  | none => none
  | some (raw, rest) =>
    let (raw2, rest2) := withFracPart raw rest
    let (raw3, rest3) := withExpPart raw2 rest2
    some (raw3, rest3)

mutual

/-- Parse one JSON value (no leading whitespace); `fuel` bounds the
recursion and is always sufficient when instantiated with the input length
plus one. -/
def parseValueF : Nat → List Char → Option (Json × List Char)
  | 0, _ => none
  | fuel + 1, l =>
    match l with
    | '\x7b' :: r => parseObjItemsF fuel (jsonSkipWs r)
    | '[' :: r => parseArrItemsF fuel (jsonSkipWs r)
    | '"' :: r => (parseStringBodyF fuel r).map (fun p => (Json.str (String.mk p.1), p.2))
    | 't' :: 'r' :: 'u' :: 'e' :: r => some (Json.bool true, r)
    | 'f' :: 'a' :: 'l' :: 's' :: 'e' :: r => some (Json.bool false, r)
    | 'n' :: 'u' :: 'l' :: 'l' :: r => some (Json.null, r)
    | 'N' :: 'a' :: 'N' :: r => some (Json.num "NaN", r)
    | 'I' :: 'n' :: 'f' :: 'i' :: 'n' :: 'i' :: 't' :: 'y' :: r =>
      some (Json.num "Infinity", r)
    | '-' :: 'I' :: 'n' :: 'f' :: 'i' :: 'n' :: 'i' :: 't' :: 'y' :: r =>
      some (Json.num "-Infinity", r)
    | _ => (parseNumber l).map (fun p => (Json.num (String.mk p.1), p.2))

/-- Parse the items of an array, after `[` and whitespace. -/
def parseArrItemsF : Nat → List Char → Option (Json × List Char)
  | 0, _ => none
  | fuel + 1, l =>
    match l with
    | ']' :: r => some (Json.arr [], r)
    | _ =>
      match parseValueF fuel l with
      | none => none
      | some (v, rest) => parseArrRestF fuel [v] (jsonSkipWs rest)

/-- Parse the remaining items of an array (accumulator holds parsed items
in reverse). -/
def parseArrRestF : Nat → List Json → List Char → Option (Json × List Char)
  | 0, _, _ => none
  | fuel + 1, acc, l =>
    match l with
    | ']' :: r => some (Json.arr acc.reverse, r)
    | ',' :: r =>
      match parseValueF fuel (jsonSkipWs r) with
      | none => none
      | some (v, rest) => parseArrRestF fuel (v :: acc) (jsonSkipWs rest)
    | _ => none

/-- Parse the members of an object, after `\x7b` and whitespace. -/
def parseObjItemsF : Nat → List Char → Option (Json × List Char)
  | 0, _ => none
  | fuel + 1, l =>
    match l with
    | '\x7d' :: r => some (Json.obj [], r)
    | '"' :: r =>
      match parseStringBodyF fuel r with
      | none => none
      | some (k, r1) =>
        match jsonSkipWs r1 with
        | ':' :: r2 =>
          match parseValueF fuel (jsonSkipWs r2) with
          | none => none
          | some (v, r3) => parseObjRestF fuel [(String.mk k, v)] (jsonSkipWs r3)
        | _ => none
    | _ => none

/-- Parse the remaining members of an object. -/
def parseObjRestF : Nat → List (String × Json) → List Char → Option (Json × List Char)
  | 0, _, _ => none
  | fuel + 1, acc, l =>
    match l with
    | '\x7d' :: r => some (Json.obj acc.reverse, r)
    | ',' :: r =>
      match jsonSkipWs r with
      | '"' :: r1 =>
        match parseStringBodyF fuel r1 with
        | none => none
        | some (k, r2) =>
          match jsonSkipWs r2 with
          | ':' :: r3 =>
            match parseValueF fuel (jsonSkipWs r3) with
            | none => none
            | some (v, r4) => parseObjRestF fuel ((String.mk k, v) :: acc) (jsonSkipWs r4)
          | _ => none
      | _ => none
    | _ => none

end

/-- Model of `json.loads`: skip leading whitespace, parse one value,
require only whitespace to remain; `none` models a raised
`JSONDecodeError`. -/
def pyJsonLoads (s : String) : Option Json :=
  match parseValueF (2 * s.length + 2) (jsonSkipWs s.data) with
  | some (v, rest) => if (jsonSkipWs rest).isEmpty then some v else none
  | none => none

/-! ## JSON post-processing helpers used by `answer_question` -/

/-- Truthiness of a JSON number from its raw text: zero iff the mantissa
contains digits and they are all `0` (`NaN`/`Infinity` are truthy). -/
def numIsZero (raw : String) : Bool :=
  let mant := raw.data.takeWhile (fun c => !(c = 'e') && !(c = 'E'))
  mant.any Char.isDigit && mant.all (fun c => !c.isDigit || c = '0')

/-- Python truthiness (`not x`) of a decoded JSON value. -/
def pyFalsy : Json → Bool
  | Json.null => true
  | Json.bool b => !b
  | Json.num raw => numIsZero raw
  | Json.str s => s.isEmpty
  | Json.arr xs => xs.isEmpty
  | Json.obj kvs => kvs.isEmpty

/-- Lookup in a decoded JSON object.  A Python dict built by `json.loads`
keeps the last value for a duplicated key, so the last binding wins. -/
def lookupLast (kvs : List (String × Json)) (k : String) : Option Json :=
  match kvs with
  | [] => none
  | (k', v) :: rest =>
    match lookupLast rest k with
    | some r => some r
    | none => if k' = k then some v else none

/-- The strings of a decoded JSON list, or `none` when some element is
not a string (`"\n".join` would raise `TypeError`). -/
def optionStrList : List Json → Option (List String)
  | [] => some []
  | Json.str s :: rest => (optionStrList rest).map (fun l => s :: l)
  | _ :: _ => none

/-- Python `"\n".join(x)` on a decoded JSON value: joins a list of strings;
iterating a string yields its characters, iterating a dict yields its keys
(first-occurrence order, duplicates collapsed); any other value (or a list
with a non-string element) raises `TypeError`, modelled as `none`. -/
def strJoinNl : Json → Option String
  | Json.arr xs => (optionStrList xs).map (String.intercalate "\n")
  | Json.str s => some (String.intercalate "\n" (s.data.map (fun c => String.mk [c])))
  | Json.obj kvs => some (String.intercalate "\n" (kvs.map Prod.fst).eraseDups)
  | _ => none

/-! ## The configuration source (`config.ini` through `configparser`) -/

/-- One section of an ini file: option/value pairs. -/
abbrev ConfSection := List (String × String)

/-- A parsed ini file: named sections. -/
abbrev ConfFile := List (String × ConfSection)

/-- Everything construction of the client can raise, tagged by the Python
exception the source raises.  The spec's abstract taxonomy calls
`fileNotFound` a `ConfigurationError` and both `noOption` (on the API-key
lookup, the only one without a fallback) and `emptyApiKey` a
`MissingCredentialError`. -/
inductive InitError where
  | fileNotFound : InitError
  | noSection (sec : String) : InitError
  | noOption (key : String) : InitError
  | emptyApiKey : InitError
  | invalidValue : InitError
deriving DecidableEq

/-- The spec's `ConfigurationError`: the configuration source cannot be
located or read. -/
def isConfigurationError : InitError → Bool
  | InitError.fileNotFound => true
  | _ => false

/-- The spec's `MissingCredentialError`: the required credential field is
absent or empty. -/
def isCredentialError : InitError → Bool
  | InitError.noOption _ => true
  | InitError.emptyApiKey => true
  | _ => false

/-- `conf.get(sec, key)` without fallback: raises `NoSectionError` or
`NoOptionError` when absent. -/
def confGet (f : ConfFile) (sec key : String) : Except InitError String :=
  match f.lookup sec with
  | none => Except.error (InitError.noSection sec)
  | some s =>
    match s.lookup key with
    | none => Except.error (InitError.noOption key)
    | some v => Except.ok v

/-- `conf.get(sec, key, fallback=...)` resolves to `none` when the section
or the option is missing (the caller then uses its fallback). -/
def confGetOpt (f : ConfFile) (sec key : String) : Option String :=
  (f.lookup sec).bind (fun s => s.lookup key)

/-- Python `int(str)`: strip whitespace, optional sign, decimal digits with
single underscores allowed between digits. -/
def pyIntDigits : Nat → List Char → Option Nat
  | acc, [] => some acc
  | acc, '_' :: c :: rest =>
    if c.isDigit then pyIntDigits (acc * 10 + (c.toNat - 48)) rest else none
  | _, '_' :: [] => none
  | acc, c :: rest =>
    if c.isDigit then pyIntDigits (acc * 10 + (c.toNat - 48)) rest else none

/-- Python `int(str)`; `none` models a raised `ValueError`. -/
def pyInt (s : String) : Option Int :=
  let l := pyStripL s.data
  let (sgn, l1) : Int × List Char :=
    match l with
    | '+' :: r => (1, r)
    | '-' :: r => (-1, r)
    | _ => (1, l)
  match l1 with
  | c :: rest =>
    if c.isDigit then (pyIntDigits (c.toNat - 48) rest).map (fun n => sgn * (n : Int))
    else none
  | [] => none

/-- Digit list to a natural number. -/
def digitsToNat (l : List Char) : Nat :=
  l.foldl (fun acc c => acc * 10 + (c.toNat - 48)) 0

/-- Python `float(str)` restricted to finite decimal literals (the client
only ever converts values like `0.8`); `inf`/`nan` spellings, which have
no rational value, map to `none` as does any malformed literal. -/
def pyFloat (s : String) : Option ℚ :=
  let l := pyStripL s.data
  let (sgn, l1) : ℚ × List Char :=
    match l with
    | '+' :: r => (1, r)
    | '-' :: r => (-1, r)
    | _ => (1, l)
  let ip := l1.takeWhile Char.isDigit
  let r1 := l1.dropWhile Char.isDigit
  let mant : Option (Nat × Nat × List Char) :=
    match r1 with
    | '.' :: r2 =>
      let fp := r2.takeWhile Char.isDigit
      if ip.isEmpty ∧ fp.isEmpty then none
      else some (digitsToNat (ip ++ fp), 10 ^ fp.length, r2.dropWhile Char.isDigit)
    | _ => if ip.isEmpty then none else some (digitsToNat ip, 1, r1)
  match mant with
  | none => none
  | some (mantNum, mantDen, r2) =>
    match r2 with
    | [] => some (sgn * (mantNum : ℚ) / (mantDen : ℚ))
    | e :: r3 =>
      if e = 'e' ∨ e = 'E' then
        let (esgn, r4) : Int × List Char :=
          match r3 with
          | '+' :: r => (1, r)
          | '-' :: r => (-1, r)
          | _ => (1, r3)
        let ds := r4.takeWhile Char.isDigit
        if ds.isEmpty ∨ ¬(r4.dropWhile Char.isDigit).isEmpty then none
        else some (sgn * (mantNum : ℚ) / (mantDen : ℚ) * (10 : ℚ) ^ (esgn * (digitsToNat ds : Int)))
      else none

/-- `configparser.getboolean` value parsing (case-insensitive `1`, `yes`,
`true`, `on` / `0`, `no`, `false`, `off`). -/
def pyGetBoolean (s : String) : Option Bool :=
  let ls := s.toLower
  if ls = "1" ∨ ls = "yes" ∨ ls = "true" ∨ ls = "on" then some true
  else if ls = "0" ∨ ls = "no" ∨ ls = "false" ∨ ls = "off" then some false
  else none

/-- Python `v.split(',')`: split at every comma, keeping empty pieces. -/
def splitCommaChars (acc : List Char) : List Char → List String
  | [] => [String.mk acc.reverse]
  | c :: cs =>
    if c = ',' then String.mk acc.reverse :: splitCommaChars [] cs
    else splitCommaChars (c :: acc) cs

/-- `[item.strip() for item in v.split(',')]` (part two: strip each
piece). -/
def splitCommaStrip (v : String) : List String :=
  (splitCommaChars [] v.data).map pyStrip

/-! ## Request/response shapes of the OpenAI-compatible gateway -/

/-- One part of a multimodal user message. -/
inductive ContentPart where
  | text (s : String) : ContentPart
  | image_url (url : String) : ContentPart
deriving DecidableEq

/-- The content of a chat message: a bare string (system turn) or a list of
parts (user turn). -/
inductive MsgContent where
  | text (s : String) : MsgContent
  | parts (ps : List ContentPart) : MsgContent
deriving DecidableEq

/-- One chat message. -/
structure ChatMessage where
  role : String
  content : MsgContent
deriving DecidableEq

/-- The request body `client.chat.completions.create` is called with. -/
structure Request where
  model : String
  messages : List ChatMessage
  temperature : ℚ
  max_tokens : Nat
  stream : Bool

/-- The message inside one returned choice; `content` can be JSON null. -/
structure GatewayMessage where
  content : Option String

/-- One returned choice. -/
structure Choice where
  message : GatewayMessage

/-- The completion object the gateway returns. -/
structure Completion where
  choices : List Choice

/-- Exceptions the body of `answer_question`'s `try` can raise; all are
swallowed by its `except Exception` clause. -/
inductive PyExc where
  | apiError (msg : String) : PyExc
  | indexError : PyExc
  | attributeError : PyExc
  | jsonDecodeError : PyExc
  | typeError : PyExc

/-! ## The `DoubaoTiku` client -/

/-- Class attribute `DEFAULT_MODEL`. -/
def DEFAULT_MODEL : String := "doubao-seed-1.6"

/-- Class attribute `DEFAULT_BASE_URL`. -/
def DEFAULT_BASE_URL : String := "https://ai-gateway.vei.volces.com/v1"

/-- Instance state of a constructed `DoubaoTiku` client: the
configuration-derived fields plus the single mutable timing field. -/
structure DoubaoTiku where
  api_key : String
  base_url : String
  model : String
  min_interval : Int
  max_tokens : Nat
  submit : Bool
  cover_rate : ℚ
  true_list : List String
  false_list : List String
  last_request_time : Option ℚ
  DISABLE : Bool
  COVER_RATE : ℚ

/-- Construction (`__init__`): `_load_config` (a `None` source models
`conf.read` failing, raising `FileNotFoundError`), then `_init_client`
(API-key lookup without fallback, endpoint/model/interval with fallbacks,
the int conversion, then the required-key check -- in source order, the
`int()` call precedes the emptiness check), then `_load_business_config`,
then the two instance attributes.  Constructing the `openai.OpenAI`
client performs no network call. -/
def mkDoubaoTiku (src : Option ConfFile) : Except InitError DoubaoTiku :=
  match src with
  | none => Except.error InitError.fileNotFound
  | some conf =>
    match confGet conf "tiku" "doubao_api_key" with
    | Except.error e => Except.error e
    | Except.ok api_key =>
      let base_url := (confGetOpt conf "tiku" "doubao_endpoint").getD DEFAULT_BASE_URL
      let model := (confGetOpt conf "tiku" "doubao_model").getD DEFAULT_MODEL
      let min_interval? : Option Int :=
        match confGetOpt conf "tiku" "doubao_min_interval" with
        | none => some 1
        | some v => pyInt v
      match min_interval? with
      | none => Except.error InitError.invalidValue
      | some min_interval =>
        if api_key = "" then Except.error InitError.emptyApiKey
        else
          let submit? : Option Bool :=
            match confGetOpt conf "tiku" "submit" with
            | none => some true
            | some v => pyGetBoolean v
          match submit? with
          | none => Except.error InitError.invalidValue
          | some submit =>
            let cover_rate? : Option ℚ :=
              match confGetOpt conf "tiku" "cover_rate" with
              | none => some (4 / 5)
              | some v => pyFloat v
            match cover_rate? with
            | none => Except.error InitError.invalidValue
            | some cover_rate =>
              let true_list :=
                splitCommaStrip ((confGetOpt conf "tiku" "true_list").getD "正确,对,√,是")
              let false_list :=
                splitCommaStrip ((confGetOpt conf "tiku" "false_list").getD "错误,×,否,不对,不正确")
              Except.ok
                { api_key := api_key
                  base_url := base_url
                  model := model
                  min_interval := min_interval
                  max_tokens := 1024
                  submit := submit
                  cover_rate := cover_rate
                  true_list := true_list
                  false_list := false_list
                  last_request_time := none
                  DISABLE := false
                  COVER_RATE := cover_rate }

/-- `_clean_response`: `content.strip().replace('```json', '').replace('```', '')`. -/
def clean_response (content : String) : String :=
  String.mk (replaceAll "```".data [] (replaceAll "```json".data [] (pyStripL content.data)))

/-- The fixed system prompt of `answer_question`. -/
def system_prompt : String :=
  "本题为简答题，直接给出核心答案，以JSON格式返回：\x7b\"Answer\": [\"答案内容\"]\x7d。禁止输出任何多余解释、MD语法或参考资料。"

/-- The rate-limit sleep performed at the top of `answer_question`: with a
previous (truthy, hence nonzero) timestamp `t`, when `now - t` is below
the configured minimum the call blocks for the remainder.  Returns the
slept duration. -/
def rateSleep (min_interval : Int) (last : Option ℚ) (now : ℚ) : ℚ :=
  match last with
  | none => 0
  | some t =>
    if t = 0 then 0
    else if now - t < (min_interval : ℚ) then (min_interval : ℚ) - (now - t) else 0

/-- The wall-clock moment the network request of `answer_question` starts:
the call time plus the rate-limit sleep.  This is also the value recorded
into `last_request_time`, which the source assigns before the network
call. -/
def requestStart (t : DoubaoTiku) (now : ℚ) : ℚ :=
  now + rateSleep t.min_interval t.last_request_time now

/-- The messages list built by `answer_question`: the system prompt plus a
user turn with the question text and, when a truthy image URL was passed,
an image part. -/
def buildMessages (full_question : String) (image_url : Option String) : List ChatMessage :=
  [ { role := "system", content := MsgContent.text system_prompt },
    { role := "user",
      content := MsgContent.parts
        ([ContentPart.text full_question] ++
          match image_url with
          | some u => if u = "" then [] else [ContentPart.image_url u]
          | none => []) } ]

/-- The request `answer_question` issues. -/
def buildRequest (t : DoubaoTiku) (full_question : String) (image_url : Option String) :
    Request :=
  { model := t.model
    messages := buildMessages full_question image_url
    temperature := 1 / 10
    max_tokens := t.max_tokens
    stream := false }

/-- The body of `answer_question`'s `try` block, with every exception it
can raise made explicit: the gateway call itself, `choices[0]` on an empty
list, `.strip()` on a null content, `json.loads` on invalid JSON, `.get`
on a non-dict, and `"\n".join` on a non-joinable value.  An empty/falsy
`Answer` is not an exception: the source logs and returns `None`. -/
def tryAnswerBody (gwResult : Except String Completion) : Except PyExc (Option String) :=
  match gwResult with
  | Except.error e => Except.error (PyExc.apiError e)
  | Except.ok completion =>
    match completion.choices with
    | [] => Except.error PyExc.indexError
    | choice :: _ =>
      match choice.message.content with
      | none => Except.error PyExc.attributeError
      | some content =>
        match pyJsonLoads (clean_response content) with
        | none => Except.error PyExc.jsonDecodeError
        | some answer_json =>
          match answer_json with
          | Json.obj kvs =>
            let answer_list := (lookupLast kvs "Answer").getD (Json.arr [])
            if pyFalsy answer_list then Except.ok none
            else
              match strJoinNl answer_list with
              | none => Except.error PyExc.typeError
              | some joined => Except.ok (some (pyStrip joined))
          | _ => Except.error PyExc.attributeError

/-- `answer_question(full_question, image_url)`: rate-limit sleep, record
the new `last_request_time` (before the network call), issue the request
to the gateway, and post-process; the `except Exception` clause turns any
raised exception into `None`.  Returns the answer and the updated client
state; `now` is the wall-clock time of the call and `gateway` models the
remote endpoint. -/
def DoubaoTiku.answer_question (t : DoubaoTiku) (gateway : Request → Except String Completion)
    (now : ℚ) (full_question : String) (image_url : Option String) :
    Option String × DoubaoTiku :=
  let t' := { t with last_request_time := some (requestStart t now) }
  let result :=
    match tryAnswerBody (gateway (buildRequest t full_question image_url)) with
    | Except.ok v => v
    | Except.error _ => none
  (result, t')

/-- A question record as passed to `query` (`q["title"]`). -/
structure Question where
  title : String

/-- `query(q)`: thin alias for `answer_question(q["title"])`. -/
def DoubaoTiku.query (t : DoubaoTiku) (gateway : Request → Except String Completion)
    (now : ℚ) (q : Question) : Option String × DoubaoTiku :=
  t.answer_question gateway now q.title none

/-- `get_submit_params()`: `"1"` (save) when submit is off, `""` (submit)
when on. -/
def DoubaoTiku.get_submit_params (t : DoubaoTiku) : String :=
  if !t.submit then "1" else ""

/-- `judgement_select(res)`: scan the true synonyms first, then the false
synonyms, else fall back to `random.choice([True, False])`, modelled by
the explicit `coin` argument. -/
def DoubaoTiku.judgement_select (t : DoubaoTiku) (res : String) (coin : Bool) : Bool :=
  if t.true_list.any (fun k => pyIn k res) then true
  else if t.false_list.any (fun k => pyIn k res) then false
  else coin

/-! ## Claim-side definitions: well-formed responses, witnesses -/

/-- A gateway that answers every request with one choice whose message
content is `content`. -/
def constGateway (content : String) : Request → Except String Completion :=
  fun _ => Except.ok { choices := [{ message := { content := some content } }] }

/-- A completion with a single choice carrying `content`. -/
def completionOf (content : String) : Completion :=
  { choices := [{ message := { content := some content } }] }

/-- A character that serializes into a JSON string as itself and is
untouched by `_clean_response`: not a quote, backslash, backtick or raw
control character. -/
def PlainChar (c : Char) : Prop :=
  c ≠ '"' ∧ c ≠ '\\' ∧ c ≠ '\x60' ∧ 32 ≤ c.toNat

instance : DecidablePred PlainChar := fun c => by unfold PlainChar; infer_instance

/-- Serialization of the elements of a non-first position of the answer
list: `, "x"` for each element. -/
def moreElems : List String → List Char
  | [] => []
  | x :: xs => ',' :: ' ' :: '"' :: (x.data ++ '"' :: moreElems xs)

/-- Serialization of the elements of the answer list: `"x1", "x2", ...`. -/
def quoteElems : List String → List Char
  | [] => []
  | x :: xs => '"' :: (x.data ++ '"' :: moreElems xs)

/-- The well-formed gateway response of the spec: the JSON text
`\x7b"Answer": ["x1", "x2", ...]\x7d`. -/
def serializeAnswer (xs : List String) : String :=
  String.mk
    ('\x7b' :: '"' :: 'A' :: 'n' :: 's' :: 'w' :: 'e' :: 'r' :: '"' :: ':' :: ' ' :: '[' ::
      (quoteElems xs ++ [']', '\x7d']))

/-- The hypothesis of the amended empty-credential claim: the
`doubao_min_interval` option, if present, is a valid Python integer
literal (the source converts it before checking the key). -/
def MinIntervalParses (sec : ConfSection) : Prop :=
  ∀ v, sec.lookup "doubao_min_interval" = some v → (pyInt v).isSome

/-- A minimal readable configuration: only the required API key. -/
def conf0 : ConfFile := [("tiku", [("doubao_api_key", "k")])]

/-- The client `conf0` constructs: every optional field at its default. -/
def tiku0 : DoubaoTiku :=
  { api_key := "k"
    base_url := DEFAULT_BASE_URL
    model := DEFAULT_MODEL
    min_interval := 1
    max_tokens := 1024
    submit := true
    cover_rate := 4 / 5
    true_list := ["正确", "对", "√", "是"]
    false_list := ["错误", "×", "否", "不对", "不正确"]
    last_request_time := none
    DISABLE := false
    COVER_RATE := 4 / 5 }

/-- A client with a recorded previous request at time 5 and a 3-second
minimum interval, for the rate-limit witness. -/
def tiku5 : DoubaoTiku :=
  { tiku0 with min_interval := 3, last_request_time := some 5 }

/-- A gateway whose call raises (an API error). -/
def failGateway : Request → Except String Completion :=
  fun _ => Except.error "APIConnectionError"

/-- The C2 counterexample content: leading `\x0b` (vertical tab) is Python
whitespace but not JSON whitespace. -/
def content_c2 : String := "\x0b\x7b\"Answer\": [\"a\"]\x7d"

/-! ## Basic lemmas about the string primitives -/

/-- Skipping `u.length` characters of `u ++ l` resumes the scan at `l`. -/
theorem replaceAllAux_skip (pat rep : List Char) :
    ∀ (u l : List Char), replaceAllAux pat rep (u ++ l) u.length = replaceAllAux pat rep l 0 := by
  intro u
  induction u with
  | nil => intro l; rfl
  | cons a u' ih => intro l; simpa [replaceAllAux] using ih l

/-- Unfolding `replaceAll` at a position where the pattern matches. -/
theorem replaceAll_pos (pat rep : List Char) (c : Char) (cs : List Char)
    (hne : pat ≠ []) (h : pat.isPrefixOf (c :: cs) = true) :
    replaceAll pat rep (c :: cs) = rep ++ replaceAll pat rep ((c :: cs).drop pat.length) := by
  obtain ⟨t, ht⟩ := List.isPrefixOf_iff_prefix.mp h
  cases pat with
  | nil => exact absurd rfl hne
  | cons p ps =>
    have hcs : cs = ps ++ t := by
      have := ht
      simp only [List.cons_append] at this
      exact ((List.cons.injEq _ _ _ _).mp this).2.symm
    have hdrop : (c :: cs).drop (p :: ps).length = t := by
      rw [← ht, List.drop_left]
    rw [hdrop]
    show replaceAllAux (p :: ps) rep (c :: cs) 0 = rep ++ replaceAllAux (p :: ps) rep t 0
    rw [show replaceAllAux (p :: ps) rep (c :: cs) 0 =
        rep ++ replaceAllAux (p :: ps) rep cs ((p :: ps).length - 1) from by
      simp [replaceAllAux, h]]
    rw [hcs]
    have : (p :: ps).length - 1 = ps.length := by simp
    rw [this, replaceAllAux_skip]

/-- Unfolding `replaceAll` at a position where the pattern does not match. -/
theorem replaceAll_neg (pat rep : List Char) (c : Char) (cs : List Char)
    (h : ¬ pat.isPrefixOf (c :: cs) = true) :
    replaceAll pat rep (c :: cs) = c :: replaceAll pat rep cs := by
  show replaceAllAux pat rep (c :: cs) 0 = c :: replaceAllAux pat rep cs 0
  simp [replaceAllAux, h]

/-- A prefix of a list only contains members of the list. -/
theorem mem_of_isPrefixOf {pat l : List Char} {c : Char}
    (h : pat.isPrefixOf l = true) (hc : c ∈ pat) : c ∈ l :=
  ((List.isPrefixOf_iff_prefix.mp h).sublist).mem hc

/-- `str.replace` is the identity when some pattern character does not
occur in the input. -/
theorem replaceAll_eq_self {pat : List Char} (rep : List Char) {c : Char}
    (hc : c ∈ pat) : ∀ {l : List Char}, c ∉ l → replaceAll pat rep l = l := by
  intro l
  induction l with
  | nil => intro _; rfl
  | cons a l' ih =>
    intro h
    by_cases hp : pat.isPrefixOf (a :: l') = true
    · exact absurd (mem_of_isPrefixOf hp hc) h
    · rw [replaceAll_neg pat rep a l' hp, ih (fun hm => h (List.mem_cons_of_mem a hm))]

/-- `str.strip` is the identity when neither end is whitespace. -/
theorem pyStripL_eq_self {l : List Char}
    (h1 : ∀ c, l.head? = some c → isPyWs c = false)
    (h2 : ∀ c, l.getLast? = some c → isPyWs c = false) :
    pyStripL l = l := by
  unfold pyStripL
  cases l with
  | nil => rfl
  | cons a l' =>
    have ha : isPyWs a = false := h1 a rfl
    rw [List.dropWhile_cons, ha]
    simp only [Bool.false_eq_true, if_false]
    cases hrev : (a :: l').reverse with
    | nil => exact absurd hrev (by simp)
    | cons b r' =>
      have hb : (a :: l').getLast? = some b := by
        rw [← List.head?_reverse, hrev]; rfl
      rw [List.dropWhile_cons, h2 b hb]
      simp only [Bool.false_eq_true, if_false]
      rw [← hrev, List.reverse_reverse]

/-- Bridge between the executable substring test and `List.IsInfix`. -/
theorem listContainsSub_iff (needle : List Char) :
    ∀ (l : List Char), listContainsSub needle l = true ↔ needle <:+: l := by
  intro l
  induction l with
  | nil => simp [listContainsSub, List.infix_nil, List.isEmpty_iff]
  | cons c cs ih =>
    simp only [listContainsSub, Bool.or_eq_true, List.isPrefixOf_iff_prefix, ih,
      List.infix_cons_iff]

/-! ## C7, C8, C9: submit parameters, query alias, frame conditions -/

/-- C7: `getSubmitParams` returns the sentinel string `"1"` exactly when
auto-submit is configured false, and `""` exactly when it is true. -/
theorem C7_submit_params (t : DoubaoTiku) :
    (t.get_submit_params = "1" ↔ t.submit = false) ∧
    (t.get_submit_params = "" ↔ t.submit = true) := by
  cases h : t.submit <;> simp [DoubaoTiku.get_submit_params, h]

/-- C8: `query q` is definitionally `answerQuestion` applied to the
question's title with no image URL: the two functions agree on every
client state, gateway, call time and question record. -/
theorem C8_query_alias (t : DoubaoTiku) (gateway : Request → Except String Completion)
    (now : ℚ) (q : Question) :
    t.query gateway now q = t.answer_question gateway now q.title none := rfl

/-- C9: every operation leaves the configuration-derived fields unchanged;
the only mutated field is `last_request_time`, which `answer_question`
(and hence `query`) sets to the request-start timestamp on every call and
never resets to `none`.  (`get_submit_params` and `judgement_select` are
pure: their embeddings return no state at all.) -/
theorem C9_frame (t : DoubaoTiku) (gateway : Request → Except String Completion)
    (now : ℚ) (q : String) (img : Option String) (qr : Question) :
    (t.answer_question gateway now q img).2 =
      { t with last_request_time := some (requestStart t now) } ∧
    (t.query gateway now qr).2 =
      { t with last_request_time := some (requestStart t now) } ∧
    (t.answer_question gateway now q img).2.last_request_time ≠ none := by
  refine ⟨rfl, rfl, ?_⟩
  simp [DoubaoTiku.answer_question]

/-! ## C5: rate limiting -/

/-- C5: when a previous (truthy) request timestamp `prev` is recorded, a
call entering at time `now` sleeps for the remaining duration, so its
request start -- which is also the value written into
`last_request_time`, recorded before the network call -- is at least the
configured minimum interval after `prev`. -/
theorem C5_min_interval (t : DoubaoTiku) (gateway : Request → Except String Completion)
    (now prev : ℚ) (q : String) (img : Option String)
    (hlast : t.last_request_time = some prev) (hnz : prev ≠ 0) :
    (t.answer_question gateway now q img).2.last_request_time = some (requestStart t now) ∧
    (t.min_interval : ℚ) ≤ requestStart t now - prev := by
  refine ⟨rfl, ?_⟩
  unfold requestStart rateSleep
  rw [hlast]
  simp only [hnz, if_false]
  by_cases h : now - prev < (t.min_interval : ℚ)
  · rw [if_pos h]
    linarith
  · rw [if_neg h]
    linarith [not_lt.mp h]

/-- Witness for C5 at a concrete client: previous request at time 5,
minimum interval 3, second call at time 6. -/
theorem C5_min_interval_witness :
    (tiku5.answer_question failGateway 6 "q" none).2.last_request_time =
      some (requestStart tiku5 6) ∧
    (tiku5.min_interval : ℚ) ≤ requestStart tiku5 6 - 5 :=
  C5_min_interval tiku5 failGateway 6 5 "q" none rfl (by decide)

/-! ## C6: construction failures -/

/-- C6: construction from an unreadable configuration source fails with
the error the spec calls `ConfigurationError`; a source lacking the
`doubao_api_key` option fails with `NoOptionError` and one with an empty
value fails with the `ValueError` guard, both of which the spec's
taxonomy classes as `MissingCredentialError`.  The empty-key case assumes
`doubao_min_interval`, if present, parses (the source converts it before
checking the key).  Construction performs no network call. -/
theorem C6_construction_failures :
    (mkDoubaoTiku none = Except.error InitError.fileNotFound ∧
      isConfigurationError InitError.fileNotFound = true) ∧
    (∀ (f : ConfFile) (sec : ConfSection), f.lookup "tiku" = some sec →
      sec.lookup "doubao_api_key" = none →
      mkDoubaoTiku (some f) = Except.error (InitError.noOption "doubao_api_key") ∧
      isCredentialError (InitError.noOption "doubao_api_key") = true) ∧
    (∀ (f : ConfFile) (sec : ConfSection), f.lookup "tiku" = some sec →
      sec.lookup "doubao_api_key" = some "" →
      MinIntervalParses sec →
      mkDoubaoTiku (some f) = Except.error InitError.emptyApiKey ∧
      isCredentialError InitError.emptyApiKey = true) := by
  refine ⟨⟨rfl, rfl⟩, ?_, ?_⟩
  · intro f sec h1 h2
    refine ⟨?_, rfl⟩
    simp only [mkDoubaoTiku, confGet, h1, h2]
  · intro f sec h1 h2 h3
    refine ⟨?_, rfl⟩
    have hmin : (match confGetOpt f "tiku" "doubao_min_interval" with
        | none => some (1 : Int) | some v => pyInt v).isSome = true := by
      unfold confGetOpt
      rw [h1, Option.some_bind]
      cases hm : sec.lookup "doubao_min_interval" with
      | none => rfl
      | some v => simpa using h3 v hm
    obtain ⟨m, hm⟩ := Option.isSome_iff_exists.mp hmin
    simp only [mkDoubaoTiku, confGet, h1, h2, hm]
    simp

/-- Witness for C6 at concrete configuration sources: one lacking the key
and one with an empty value. -/
theorem C6_construction_failures_witness :
    mkDoubaoTiku (some [("tiku", [("doubao_endpoint", "e")])]) =
      Except.error (InitError.noOption "doubao_api_key") ∧
    mkDoubaoTiku (some [("tiku", [("doubao_api_key", "")])]) =
      Except.error InitError.emptyApiKey :=
  ⟨(C6_construction_failures.2.1 [("tiku", [("doubao_endpoint", "e")])]
      [("doubao_endpoint", "e")] (by decide) (by decide)).1,
   (C6_construction_failures.2.2 [("tiku", [("doubao_api_key", "")])]
      [("doubao_api_key", "")] (by decide) (by decide)
      (fun v hv => by simp [List.lookup] at hv)).1⟩

/-! ## C4 and C10: true/false classification -/

/-- C4 counterexample: on `"答案是错误的"` the claim (and the spec's test
example) expects `false`, but the text contains the default true-synonym
`"是"`, which is scanned first, so the code returns `true` whatever the
random fallback would have been. -/
theorem C4_counterexample :
    tiku0.judgement_select "答案是错误的" true = true ∧
    tiku0.judgement_select "答案是错误的" false = true :=
  ⟨by decide, by decide⟩

/-- C4 (amended): `judgement_select` scans the configured true-synonyms
first and returns true on any match before any false-synonym is
considered; with the default lists it returns true on `"这道题正确"`,
true (not false) on `"答案是错误的"` (which contains the true-synonym
`"是"`), false on `"错误"`, and on text matching neither list returns the
random draw. -/
theorem C4_amended_classification (res : String) (coin : Bool) :
    (tiku0.true_list.any (fun k => pyIn k res) = true →
      tiku0.judgement_select res coin = true) ∧
    tiku0.judgement_select "这道题正确" coin = true ∧
    tiku0.judgement_select "答案是错误的" coin = true ∧
    tiku0.judgement_select "错误" coin = false ∧
    (tiku0.true_list.any (fun k => pyIn k res) = false →
      tiku0.false_list.any (fun k => pyIn k res) = false →
      tiku0.judgement_select res coin = coin) := by
  refine ⟨?_, ?_, ?_, ?_, ?_⟩
  · intro h
    simp [DoubaoTiku.judgement_select, h]
  · simp [DoubaoTiku.judgement_select,
      show tiku0.true_list.any (fun k => pyIn k "这道题正确") = true from by decide]
  · simp [DoubaoTiku.judgement_select,
      show tiku0.true_list.any (fun k => pyIn k "答案是错误的") = true from by decide]
  · simp [DoubaoTiku.judgement_select,
      show tiku0.true_list.any (fun k => pyIn k "错误") = false from by decide,
      show tiku0.false_list.any (fun k => pyIn k "错误") = true from by decide]
  · intro h1 h2
    simp [DoubaoTiku.judgement_select, h1, h2]

/-- Witness for the amended C4: a true-synonym match and a
neither-list fallback. -/
theorem C4_amended_classification_witness :
    tiku0.judgement_select "对" true = true ∧
    tiku0.judgement_select "xyz" false = false :=
  ⟨(C4_amended_classification "对" true).1 (by decide),
   (C4_amended_classification "xyz" false).2.2.2.2 (by decide) (by decide)⟩

/-- C10: with the default lists, any response containing the
false-synonym `"不正确"` also contains the true-synonym `"正确"` as a
substring, and the true list is scanned first, so the classification is
true. -/
theorem C10_true_shadows_false (res : String) (coin : Bool)
    (h : pyIn "不正确" res = true) :
    tiku0.judgement_select res coin = true := by
  have h1 : ("不正确").data <:+: res.data := (listContainsSub_iff _ _).mp h
  have h2 : ("正确").data <:+: ("不正确").data := (listContainsSub_iff _ _).mp (by decide)
  have h3 : pyIn "正确" res = true := (listContainsSub_iff _ _).mpr (h2.trans h1)
  have h4 : tiku0.true_list.any (fun k => pyIn k res) = true := by
    simp only [tiku0, List.any_cons, h3, Bool.true_or]
  simp [DoubaoTiku.judgement_select, h4]

/-- Witness for C10 at the false-synonym itself. -/
theorem C10_true_shadows_false_witness :
    tiku0.judgement_select "不正确" true = true :=
  C10_true_shadows_false "不正确" true (by decide)

/-! ## C3: every failure is swallowed into an absent result -/

/-- C3: `answer_question` is a total function into `Option` -- the
`except Exception` clause turns every raised exception into `None` -- and
in particular it returns the absent result when the network call fails,
when the cleaned response is not valid JSON, when the `Answer` field is
absent, and when the `Answer` list is empty. -/
theorem C3_failures_return_none (t : DoubaoTiku)
    (gateway : Request → Except String Completion) (now : ℚ)
    (q : String) (img : Option String) :
    (∀ e, gateway (buildRequest t q img) = Except.error e →
      (t.answer_question gateway now q img).1 = none) ∧
    (∀ content, gateway (buildRequest t q img) = Except.ok (completionOf content) →
      pyJsonLoads (clean_response content) = none →
      (t.answer_question gateway now q img).1 = none) ∧
    (∀ content kvs, gateway (buildRequest t q img) = Except.ok (completionOf content) →
      pyJsonLoads (clean_response content) = some (Json.obj kvs) →
      lookupLast kvs "Answer" = none →
      (t.answer_question gateway now q img).1 = none) ∧
    (∀ content kvs, gateway (buildRequest t q img) = Except.ok (completionOf content) →
      pyJsonLoads (clean_response content) = some (Json.obj kvs) →
      lookupLast kvs "Answer" = some (Json.arr []) →
      (t.answer_question gateway now q img).1 = none) := by
  refine ⟨?_, ?_, ?_, ?_⟩
  · intro e hgw
    simp [DoubaoTiku.answer_question, hgw, tryAnswerBody]
  · intro content hgw hparse
    simp [DoubaoTiku.answer_question, hgw, tryAnswerBody, completionOf, hparse]
  · intro content kvs hgw hparse hlook
    simp [DoubaoTiku.answer_question, hgw, tryAnswerBody, completionOf, hparse, hlook, pyFalsy]
  · intro content kvs hgw hparse hlook
    simp [DoubaoTiku.answer_question, hgw, tryAnswerBody, completionOf, hparse, hlook, pyFalsy]

/-- Witness for C3: the four failure shapes at concrete inputs -- a
network error, non-JSON content, a JSON object without `Answer`, and an
empty `Answer` list. -/
theorem C3_failures_return_none_witness :
    (tiku0.answer_question failGateway 0 "q" none).1 = none ∧
    (tiku0.answer_question (constGateway "not json") 0 "q" none).1 = none ∧
    (tiku0.answer_question (constGateway "\x7b\"X\": 1\x7d") 0 "q" none).1 = none ∧
    (tiku0.answer_question (constGateway "\x7b\"Answer\": []\x7d") 0 "q" none).1 = none :=
  ⟨(C3_failures_return_none tiku0 failGateway 0 "q" none).1 "APIConnectionError" rfl,
   (C3_failures_return_none tiku0 (constGateway "not json") 0 "q" none).2.1
      "not json" rfl rfl,
   (C3_failures_return_none tiku0 (constGateway "\x7b\"X\": 1\x7d") 0 "q" none).2.2.1
      "\x7b\"X\": 1\x7d" [("X", Json.num "1")] rfl rfl rfl,
   (C3_failures_return_none tiku0 (constGateway "\x7b\"Answer\": []\x7d") 0 "q" none).2.2.2
      "\x7b\"Answer\": []\x7d" [("Answer", Json.arr [])] rfl rfl rfl⟩

/-! ## C2: Markdown fence stripping -/

/-- `str.replace` removes a pattern sitting at the front. -/
theorem replaceAll_front (pat rep rest : List Char) (hne : pat ≠ []) :
    replaceAll pat rep (pat ++ rest) = rep ++ replaceAll pat rep rest := by
  cases pat with
  | nil => exact absurd rfl hne
  | cons p ps =>
    rw [show (p :: ps) ++ rest = p :: (ps ++ rest) from rfl]
    rw [replaceAll_pos (p :: ps) rep p (ps ++ rest) hne
      (List.isPrefixOf_iff_prefix.mpr (List.prefix_append _ _))]
    rw [show p :: (ps ++ rest) = (p :: ps) ++ rest from rfl, List.drop_left]

/-- No occurrence of `pat` can reach into a tail `u` that does not contain
`pat`'s last character, so `str.replace` factors through the append. -/
theorem replaceAll_append_right (pat rep : List Char) (c : Char) (u : List Char)
    (hlast : pat.getLast? = some c) (hu : c ∉ u) :
    ∀ l : List Char, replaceAll pat rep (l ++ u) = replaceAll pat rep l ++ u := by
  have hcpat : c ∈ pat := List.mem_of_mem_getLast? hlast
  have hne : pat ≠ [] := by
    intro h0
    rw [h0] at hlast
    simp at hlast
  have key : ∀ (n : Nat) (l : List Char), l.length ≤ n →
      replaceAll pat rep (l ++ u) = replaceAll pat rep l ++ u := by
    intro n
    induction n with
    | zero =>
      intro l hl
      rw [List.length_eq_zero.mp (Nat.le_zero.mp hl)]
      exact replaceAll_eq_self rep hcpat hu
    | succ n ih =>
      intro l hl
      cases l with
      | nil => exact replaceAll_eq_self rep hcpat hu
      | cons a l' =>
        by_cases hp : pat.isPrefixOf (a :: l' ++ u) = true
        · by_cases hlen : pat.length ≤ (a :: l').length
          · have hps : pat.isPrefixOf (a :: l') = true := by
              rw [List.isPrefixOf_iff_prefix, List.prefix_iff_eq_take]
              rw [List.isPrefixOf_iff_prefix, List.prefix_iff_eq_take] at hp
              conv_lhs => rw [hp]
              rw [List.take_append_eq_append_take,
                show pat.length - (a :: l').length = 0 from by omega,
                List.take_zero, List.append_nil]
            rw [show a :: l' ++ u = a :: (l' ++ u) from rfl,
              replaceAll_pos pat rep a (l' ++ u) hne hp,
              replaceAll_pos pat rep a l' hne hps,
              show a :: (l' ++ u) = (a :: l') ++ u from rfl,
              List.drop_append_of_le_length hlen]
            have hplen : 0 < pat.length := List.length_pos.mpr hne
            rw [ih ((a :: l').drop pat.length)
              (by simp only [List.length_drop, List.length_cons] at hl ⊢; omega)]
            rw [List.append_assoc]
          · exfalso
            rw [List.isPrefixOf_iff_prefix] at hp
            have hs : (a :: l') <+: pat :=
              List.prefix_of_prefix_length_le (List.prefix_append _ _) hp (by omega)
            obtain ⟨w, hw⟩ := hs
            have hwne : w ≠ [] := by
              intro h0
              rw [h0, List.append_nil] at hw
              rw [← hw] at hlen
              omega
            rw [← hw] at hp
            have hwu : w <+: u := (List.prefix_append_right_inj (a :: l')).mp hp
            have hcw : c ∈ w := by
              rw [← hw, List.getLast?_append,
                List.getLast?_eq_getLast w hwne] at hlast
              simp only [Option.or, Option.some.injEq] at hlast
              exact hlast ▸ List.getLast_mem hwne
            exact hu (hwu.sublist.mem hcw)
        · have hps : ¬ pat.isPrefixOf (a :: l') = true := by
            intro h2
            apply hp
            rw [List.isPrefixOf_iff_prefix] at h2 ⊢
            exact h2.trans (List.prefix_append _ _)
          rw [show a :: l' ++ u = a :: (l' ++ u) from rfl,
            replaceAll_neg pat rep a (l' ++ u) hp,
            replaceAll_neg pat rep a l' hps,
            ih l' (by simp at hl ⊢; omega)]
          rfl
  intro l
  exact key l.length l le_rfl

/-- Appending `` ``` `` to a string and removing every `` ``` `` gives the
same result as removing from the string alone: the appended backticks
either extend a trailing run (whose length mod 3 is unchanged) or are
removed whole. -/
theorem replaceAll_ticks_absorb :
    ∀ l : List Char, replaceAll "```".data [] (l ++ "```".data) = replaceAll "```".data [] l := by
  have key : ∀ (n : Nat) (l : List Char), l.length ≤ n →
      replaceAll "```".data [] (l ++ "```".data) = replaceAll "```".data [] l := by
    intro n
    induction n with
    | zero =>
      intro l hl
      rw [List.length_eq_zero.mp (Nat.le_zero.mp hl)]
      decide
    | succ n ih =>
      intro l hl
      cases l with
      | nil => decide
      | cons a l' =>
        by_cases hp : List.isPrefixOf "```".data (a :: l') = true
        · have hp2 : List.isPrefixOf "```".data (a :: l' ++ "```".data) = true := by
            rw [List.isPrefixOf_iff_prefix] at hp ⊢
            exact hp.trans (List.prefix_append _ _)
          have hlen : ("```".data).length ≤ (a :: l').length :=
            (List.isPrefixOf_iff_prefix.mp hp).length_le
          have hp2' : List.isPrefixOf "```".data (a :: (l' ++ "```".data)) = true := hp2
          rw [show a :: l' ++ "```".data = a :: (l' ++ "```".data) from rfl,
            replaceAll_pos "```".data [] a (l' ++ "```".data) (by decide) hp2',
            replaceAll_pos "```".data [] a l' (by decide) hp,
            show a :: (l' ++ "```".data) = (a :: l') ++ "```".data from rfl,
            List.drop_append_of_le_length hlen]
          simp only [List.nil_append]
          exact ih ((a :: l').drop ("```".data).length)
            (by simp only [List.length_drop, List.length_cons] at hl ⊢; omega)
        · by_cases hp2 : List.isPrefixOf "```".data (a :: l' ++ "```".data) = true
          · -- the whole of `a :: l'` is a short run of backticks
            cases l' with
            | nil =>
              have ha : a = '\x60' := by
                simp [List.isPrefixOf, List.cons_append] at hp2
                exact hp2.symm
              rw [ha]
              decide
            | cons b l'' =>
              cases l'' with
              | nil =>
                have hab : a = '\x60' ∧ b = '\x60' := by
                  simp [List.isPrefixOf, List.cons_append] at hp2
                  exact ⟨hp2.1.symm, hp2.2.symm⟩
                rw [hab.1, hab.2]
                decide
              | cons d l''' =>
                exfalso
                apply hp
                simp [List.isPrefixOf, List.cons_append] at hp2 ⊢
                exact hp2
          · have hp2' : ¬ List.isPrefixOf "```".data (a :: (l' ++ "```".data)) = true := hp2
            rw [show a :: l' ++ "```".data = a :: (l' ++ "```".data) from rfl,
              replaceAll_neg "```".data [] a (l' ++ "```".data) hp2',
              replaceAll_neg "```".data [] a l' hp,
              ih l' (by simp only [List.length_cons] at hl; omega)]
  intro l
  exact key l.length l le_rfl

/-- Cleaning a fence-wrapped response equals cleaning the bare response,
provided the bare response carries no leading/trailing Python whitespace
(the wrapping hides such whitespace from the inner `strip`). -/
theorem clean_response_wrapped (content : String) (h : pyStrip content = content) :
    clean_response ("```json" ++ content ++ "```") = clean_response content := by
  have hdata : pyStripL content.data = content.data := congrArg String.data h
  unfold clean_response
  rw [String.data_append, String.data_append]
  have hstrip : pyStripL ("```json".data ++ content.data ++ "```".data) =
      "```json".data ++ content.data ++ "```".data := by
    apply pyStripL_eq_self
    · intro c hc
      have : c = '\x60' := by
        simp [List.cons_append] at hc
        exact hc.symm
      rw [this]
      decide
    · intro c hc
      rw [List.getLast?_append] at hc
      have : c = '\x60' := by
        simp [show ("```".data).getLast? = some '\x60' from rfl] at hc
        exact hc.symm
      rw [this]
      decide
  rw [hstrip, hdata, List.append_assoc,
    replaceAll_front "```json".data [] _ (by decide), List.nil_append,
    replaceAll_append_right "```json".data [] 'n' "```".data (by decide) (by decide),
    replaceAll_ticks_absorb]

/-- C2 counterexample: with content whose leading character is a vertical
tab (Python whitespace, not JSON whitespace), the unwrapped response
strips it and parses, but the fence-wrapped response keeps it inside the
string and `json.loads` fails, so the two results differ. -/
theorem C2_counterexample :
    ¬ ((tiku0.answer_question (constGateway ("```json" ++ content_c2 ++ "```")) 0 "q" none).1 =
       (tiku0.answer_question (constGateway content_c2) 0 "q" none).1) := by
  decide

/-- C2 (amended): for every gateway response text with no leading or
trailing Python whitespace, `answer_question` on the fence-wrapped text
equals `answer_question` on the bare text. -/
theorem C2_amended_fence_stripping (t : DoubaoTiku) (now : ℚ) (q : String)
    (img : Option String) (content : String) (h : pyStrip content = content) :
    (t.answer_question (constGateway ("```json" ++ content ++ "```")) now q img).1 =
    (t.answer_question (constGateway content) now q img).1 := by
  simp only [DoubaoTiku.answer_question, constGateway, tryAnswerBody]
  rw [clean_response_wrapped content h]

/-- Witness for the amended C2 at a concrete well-formed response. -/
theorem C2_amended_fence_stripping_witness :
    (tiku0.answer_question (constGateway ("```json" ++ "\x7b\"Answer\": [\"a\"]\x7d" ++ "```"))
        0 "q" none).1 =
    (tiku0.answer_question (constGateway "\x7b\"Answer\": [\"a\"]\x7d") 0 "q" none).1 :=
  C2_amended_fence_stripping tiku0 0 "q" none "\x7b\"Answer\": [\"a\"]\x7d" (by decide)

/-! ## C1: well-formed answers round-trip through the pipeline -/

/-- `jsonSkipWs` swallows a leading space. -/
theorem jsonSkipWs_space (l : List Char) : jsonSkipWs (' ' :: l) = jsonSkipWs l := by
  simp [jsonSkipWs, List.dropWhile_cons, jsonWsB]

/-- `jsonSkipWs` stops at a non-whitespace head. -/
theorem jsonSkipWs_nonws (c : Char) (l : List Char) (h : jsonWsB c = false) :
    jsonSkipWs (c :: l) = c :: l := by
  simp [jsonSkipWs, List.dropWhile_cons, h]

/-- Round trip for the string scanner: a string of plain characters
followed by the closing quote parses to itself. -/
theorem parseStringBodyF_plain (s : List Char) :
    ∀ (fuel : Nat) (r : List Char), (∀ c ∈ s, PlainChar c) → s.length < fuel →
    parseStringBodyF fuel (s ++ '"' :: r) = some (s, r) := by
  induction s with
  | nil =>
    intro fuel r _ hf
    cases fuel with
    | zero => exact absurd hf (Nat.not_lt_zero _)
    | succ f => simp [parseStringBodyF]
  | cons c cs ih =>
    intro fuel r hp hf
    cases fuel with
    | zero => exact absurd hf (Nat.not_lt_zero _)
    | succ f =>
      obtain ⟨h1, h2, h3, h4⟩ := hp c (List.mem_cons_self c cs)
      rw [show (c :: cs) ++ '"' :: r = c :: (cs ++ '"' :: r) from rfl]
      rw [show parseStringBodyF (f + 1) (c :: (cs ++ '"' :: r)) =
          (if c = '"' then some ([], cs ++ '"' :: r)
           else if c = '\\' then parseEscapeSeqF f (cs ++ '"' :: r)
           else if c.toNat < 32 then none
           else (parseStringBodyF f (cs ++ '"' :: r)).map (fun p => (c :: p.1, p.2)))
        from rfl]
      rw [if_neg h1, if_neg h2, if_neg (by omega)]
      rw [ih f r (fun x hx => hp x (List.mem_cons_of_mem c hx))
        (by simp only [List.length_cons] at hf; omega)]
      rfl

/-- `jsonSkipWs` is the identity on serialized tail elements. -/
theorem jsonSkipWs_moreElems (xs : List String) (r : List Char) :
    jsonSkipWs (moreElems xs ++ ']' :: r) = moreElems xs ++ ']' :: r := by
  cases xs with
  | nil => exact jsonSkipWs_nonws ']' r (by decide)
  | cons x xs =>
    rw [show moreElems (x :: xs) ++ ']' :: r =
      ',' :: (' ' :: '"' :: (x.data ++ '"' :: moreElems xs) ++ ']' :: r) from rfl]
    exact jsonSkipWs_nonws ',' _ (by decide)

/-- `jsonSkipWs` is the identity on serialized element lists. -/
theorem jsonSkipWs_quoteElems (xs : List String) (r : List Char) :
    jsonSkipWs (quoteElems xs ++ ']' :: r) = quoteElems xs ++ ']' :: r := by
  cases xs with
  | nil => exact jsonSkipWs_nonws ']' r (by decide)
  | cons x xs =>
    rw [show quoteElems (x :: xs) ++ ']' :: r =
      '"' :: ((x.data ++ '"' :: moreElems xs) ++ ']' :: r) from rfl]
    exact jsonSkipWs_nonws '"' _ (by decide)

/-- The array-rest loop parses the serialized remaining elements. -/
theorem parseArrRestF_moreElems (xs : List String) :
    ∀ (fuel : Nat) (acc : List Json) (r : List Char),
    (∀ s ∈ xs, ∀ c ∈ s.data, PlainChar c) →
    (moreElems xs ++ ']' :: r).length < fuel →
    parseArrRestF fuel acc (moreElems xs ++ ']' :: r) =
      some (Json.arr (acc.reverse ++ xs.map Json.str), r) := by
  induction xs with
  | nil =>
    intro fuel acc r _ hf
    cases fuel with
    | zero => exact absurd hf (Nat.not_lt_zero _)
    | succ f => simp [moreElems, parseArrRestF]
  | cons x xs ih =>
    intro fuel acc r hp hf
    cases fuel with
    | zero => exact absurd hf (Nat.not_lt_zero _)
    | succ f =>
      rw [show moreElems (x :: xs) ++ ']' :: r =
        ',' :: (' ' :: '"' :: (x.data ++ '"' :: (moreElems xs ++ ']' :: r))) from by
          simp [moreElems, List.cons_append, List.append_assoc]]
      rw [show parseArrRestF (f + 1) acc
          (',' :: (' ' :: '"' :: (x.data ++ '"' :: (moreElems xs ++ ']' :: r)))) =
        (match parseValueF f
            (jsonSkipWs (' ' :: '"' :: (x.data ++ '"' :: (moreElems xs ++ ']' :: r)))) with
          | none => none
          | some (v, rest) => parseArrRestF f (v :: acc) (jsonSkipWs rest)) from rfl]
      rw [jsonSkipWs_space, jsonSkipWs_nonws '"' _ (by decide)]
      have hlen : (moreElems (x :: xs) ++ ']' :: r).length =
          x.data.length + (moreElems xs ++ ']' :: r).length + 4 := by
        simp [moreElems, List.length_cons, List.length_append]
        omega
      cases f with
      | zero => rw [hlen] at hf; omega
      | succ f2 =>
        rw [show parseValueF (f2 + 1) ('"' :: (x.data ++ '"' :: (moreElems xs ++ ']' :: r))) =
          (parseStringBodyF f2 (x.data ++ '"' :: (moreElems xs ++ ']' :: r))).map
            (fun p => (Json.str (String.mk p.1), p.2)) from rfl]
        rw [parseStringBodyF_plain x.data f2 (moreElems xs ++ ']' :: r)
          (fun c hc => hp x (List.mem_cons_self x xs) c hc)
          (by rw [hlen] at hf; omega)]
        rw [show Option.map (fun p => (Json.str (String.mk p.1), p.2))
            (some (x.data, moreElems xs ++ ']' :: r)) =
          some (Json.str x, moreElems xs ++ ']' :: r) from rfl]
        rw [show (match (some (Json.str x, moreElems xs ++ ']' :: r) :
              Option (Json × List Char)) with
          | none => none
          | some (v, rest) => parseArrRestF (f2 + 1) (v :: acc) (jsonSkipWs rest)) =
          parseArrRestF (f2 + 1) (Json.str x :: acc)
            (jsonSkipWs (moreElems xs ++ ']' :: r)) from rfl]
        rw [jsonSkipWs_moreElems]
        rw [ih (f2 + 1) (Json.str x :: acc) r
          (fun s hs => hp s (List.mem_cons_of_mem x hs))
          (by rw [hlen] at hf; omega)]
        simp [List.reverse_cons, List.append_assoc]

/-- The array parser parses the serialized element list. -/
theorem parseArrItemsF_quoteElems (xs : List String) (fuel : Nat) (r : List Char)
    (hp : ∀ s ∈ xs, ∀ c ∈ s.data, PlainChar c)
    (hf : (quoteElems xs ++ ']' :: r).length < fuel) :
    parseArrItemsF fuel (quoteElems xs ++ ']' :: r) =
      some (Json.arr (xs.map Json.str), r) := by
  cases fuel with
  | zero => exact absurd hf (Nat.not_lt_zero _)
  | succ f =>
    cases xs with
    | nil =>
      rw [show quoteElems ([] : List String) ++ ']' :: r = ']' :: r from rfl]
      rw [show parseArrItemsF (f + 1) (']' :: r) = some (Json.arr [], r) from rfl]
      rfl
    | cons x xs =>
      rw [show quoteElems (x :: xs) ++ ']' :: r =
        '"' :: (x.data ++ '"' :: (moreElems xs ++ ']' :: r)) from by
          simp [quoteElems, List.cons_append, List.append_assoc]]
      rw [show parseArrItemsF (f + 1) ('"' :: (x.data ++ '"' :: (moreElems xs ++ ']' :: r))) =
        (match parseValueF f ('"' :: (x.data ++ '"' :: (moreElems xs ++ ']' :: r))) with
          | none => none
          | some (v, rest) => parseArrRestF f [v] (jsonSkipWs rest)) from rfl]
      have hlen : (quoteElems (x :: xs) ++ ']' :: r).length =
          x.data.length + (moreElems xs ++ ']' :: r).length + 2 := by
        simp [quoteElems, List.length_cons, List.length_append]
        omega
      cases f with
      | zero => rw [hlen] at hf; omega
      | succ f2 =>
        rw [show parseValueF (f2 + 1) ('"' :: (x.data ++ '"' :: (moreElems xs ++ ']' :: r))) =
          (parseStringBodyF f2 (x.data ++ '"' :: (moreElems xs ++ ']' :: r))).map
            (fun p => (Json.str (String.mk p.1), p.2)) from rfl]
        rw [parseStringBodyF_plain x.data f2 (moreElems xs ++ ']' :: r)
          (fun c hc => hp x (List.mem_cons_self x xs) c hc)
          (by rw [hlen] at hf; omega)]
        rw [show Option.map (fun p => (Json.str (String.mk p.1), p.2))
            (some (x.data, moreElems xs ++ ']' :: r)) =
          some (Json.str x, moreElems xs ++ ']' :: r) from rfl]
        rw [show (match (some (Json.str x, moreElems xs ++ ']' :: r) :
              Option (Json × List Char)) with
          | none => none
          | some (v, rest) => parseArrRestF (f2 + 1) [v] (jsonSkipWs rest)) =
          parseArrRestF (f2 + 1) [Json.str x]
            (jsonSkipWs (moreElems xs ++ ']' :: r)) from rfl]
        rw [jsonSkipWs_moreElems]
        rw [parseArrRestF_moreElems xs (f2 + 1) [Json.str x] r
          (fun s hs => hp s (List.mem_cons_of_mem x hs))
          (by rw [hlen] at hf; omega)]
        simp

/-- Parsing the serialized answer object. -/
theorem parseValueF_answerObj (xs : List String) (fuel : Nat) (r : List Char)
    (hp : ∀ s ∈ xs, ∀ c ∈ s.data, PlainChar c)
    (hf : ('\x7b' :: '"' :: 'A' :: 'n' :: 's' :: 'w' :: 'e' :: 'r' :: '"' :: ':' :: ' ' :: '[' ::
      (quoteElems xs ++ ']' :: '\x7d' :: r)).length < fuel) :
    parseValueF fuel ('\x7b' :: '"' :: 'A' :: 'n' :: 's' :: 'w' :: 'e' :: 'r' :: '"' :: ':' :: ' ' :: '[' ::
      (quoteElems xs ++ ']' :: '\x7d' :: r)) =
      some (Json.obj [("Answer", Json.arr (xs.map Json.str))], r) := by
  have hlen : ('\x7b' :: '"' :: 'A' :: 'n' :: 's' :: 'w' :: 'e' :: 'r' :: '"' :: ':' :: ' ' :: '[' ::
      (quoteElems xs ++ ']' :: '\x7d' :: r)).length =
      (quoteElems xs).length + r.length + 14 := by
    simp [List.length_cons, List.length_append]
    omega
  rw [hlen] at hf
  cases fuel with
  | zero => exact absurd hf (Nat.not_lt_zero _)
  | succ f =>
    rw [show parseValueF (f + 1) ('\x7b' :: '"' :: 'A' :: 'n' :: 's' :: 'w' :: 'e' :: 'r' :: '"' ::
        ':' :: ' ' :: '[' :: (quoteElems xs ++ ']' :: '\x7d' :: r)) =
      parseObjItemsF f (jsonSkipWs ('"' :: 'A' :: 'n' :: 's' :: 'w' :: 'e' :: 'r' :: '"' ::
        ':' :: ' ' :: '[' :: (quoteElems xs ++ ']' :: '\x7d' :: r))) from rfl]
    rw [jsonSkipWs_nonws '"' _ (by decide)]
    cases f with
    | zero => omega
    | succ f2 =>
      rw [show parseObjItemsF (f2 + 1) ('"' :: 'A' :: 'n' :: 's' :: 'w' :: 'e' :: 'r' :: '"' ::
          ':' :: ' ' :: '[' :: (quoteElems xs ++ ']' :: '\x7d' :: r)) =
        (match parseStringBodyF f2 ('A' :: 'n' :: 's' :: 'w' :: 'e' :: 'r' :: '"' ::
            ':' :: ' ' :: '[' :: (quoteElems xs ++ ']' :: '\x7d' :: r)) with
          | none => none
          | some (k, r1) =>
            match jsonSkipWs r1 with
            | ':' :: r2 =>
              match parseValueF f2 (jsonSkipWs r2) with
              | none => none
              | some (v, r3) => parseObjRestF f2 [(String.mk k, v)] (jsonSkipWs r3)
            | _ => none) from rfl]
      rw [show ('A' :: 'n' :: 's' :: 'w' :: 'e' :: 'r' :: '"' ::
          ':' :: ' ' :: '[' :: (quoteElems xs ++ ']' :: '\x7d' :: r)) =
        "Answer".data ++ '"' :: (':' :: ' ' :: '[' :: (quoteElems xs ++ ']' :: '\x7d' :: r))
        from rfl]
      rw [parseStringBodyF_plain "Answer".data f2
        (':' :: ' ' :: '[' :: (quoteElems xs ++ ']' :: '\x7d' :: r)) (by decide)
        (by have h6 : ("Answer".data).length = 6 := rfl; omega)]
      show (match parseValueF f2 (jsonSkipWs (' ' :: '[' :: (quoteElems xs ++ ']' :: '\x7d' :: r))) with
          | none => none
          | some (v, r3) => parseObjRestF f2 [("Answer", v)] (jsonSkipWs r3)) =
        some (Json.obj [("Answer", Json.arr (xs.map Json.str))], r)
      rw [jsonSkipWs_space, jsonSkipWs_nonws '[' _ (by decide)]
      cases f2 with
      | zero => omega
      | succ f3 =>
        rw [show parseValueF (f3 + 1) ('[' :: (quoteElems xs ++ ']' :: '\x7d' :: r)) =
          parseArrItemsF f3 (jsonSkipWs (quoteElems xs ++ ']' :: '\x7d' :: r)) from rfl]
        rw [jsonSkipWs_quoteElems xs ('\x7d' :: r)]
        rw [parseArrItemsF_quoteElems xs f3 ('\x7d' :: r) hp (by
          simp only [List.length_append, List.length_cons]
          omega)]
        show parseObjRestF (f3 + 1) [("Answer", Json.arr (xs.map Json.str))]
            (jsonSkipWs ('\x7d' :: r)) =
          some (Json.obj [("Answer", Json.arr (xs.map Json.str))], r)
        rw [jsonSkipWs_nonws '\x7d' _ (by decide)]
        rw [show parseObjRestF (f3 + 1) [("Answer", Json.arr (xs.map Json.str))] ('\x7d' :: r) =
          some (Json.obj [("Answer", Json.arr (xs.map Json.str))], r) from rfl]

/-- `json.loads` of the serialized well-formed answer. -/
theorem pyJsonLoads_serializeAnswer (xs : List String)
    (hp : ∀ s ∈ xs, ∀ c ∈ s.data, PlainChar c) :
    pyJsonLoads (serializeAnswer xs) =
      some (Json.obj [("Answer", Json.arr (xs.map Json.str))]) := by
  unfold pyJsonLoads
  rw [show (serializeAnswer xs).data = '\x7b' :: '"' :: 'A' :: 'n' :: 's' :: 'w' :: 'e' :: 'r' ::
    '"' :: ':' :: ' ' :: '[' :: (quoteElems xs ++ ']' :: '\x7d' :: []) from rfl]
  rw [jsonSkipWs_nonws '\x7b' _ (by decide)]
  rw [parseValueF_answerObj xs (2 * (serializeAnswer xs).length + 2) [] hp (by
    rw [show (serializeAnswer xs).length = ('\x7b' :: '"' :: 'A' :: 'n' :: 's' :: 'w' :: 'e' ::
      'r' :: '"' :: ':' :: ' ' :: '[' :: (quoteElems xs ++ ']' :: '\x7d' :: [])).length from rfl]
    omega)]
  rfl

/-- No backtick occurs among the serialized tail elements. -/
theorem tick_notin_moreElems (xs : List String)
    (hp : ∀ s ∈ xs, ∀ c ∈ s.data, PlainChar c) : '\x60' ∉ moreElems xs := by
  induction xs with
  | nil => simp [moreElems]
  | cons x xs ih =>
    intro h
    simp only [moreElems, List.mem_cons, List.mem_append] at h
    rcases h with h | h | h | h | h | h
    · exact absurd h (by decide)
    · exact absurd h (by decide)
    · exact absurd h (by decide)
    · exact absurd rfl (hp x (List.mem_cons_self x xs) '\x60' h).2.2.1
    · exact absurd h (by decide)
    · exact ih (fun s hs => hp s (List.mem_cons_of_mem x hs)) h

/-- No backtick occurs among the serialized elements. -/
theorem tick_notin_quoteElems (xs : List String)
    (hp : ∀ s ∈ xs, ∀ c ∈ s.data, PlainChar c) : '\x60' ∉ quoteElems xs := by
  cases xs with
  | nil => simp [quoteElems]
  | cons x xs =>
    intro h
    simp only [quoteElems, List.mem_cons, List.mem_append] at h
    rcases h with h | h | h | h
    · exact absurd h (by decide)
    · exact absurd rfl (hp x (List.mem_cons_self x xs) '\x60' h).2.2.1
    · exact absurd h (by decide)
    · exact tick_notin_moreElems xs (fun s hs => hp s (List.mem_cons_of_mem x hs)) h

/-- No backtick occurs anywhere in the serialized answer. -/
theorem tick_notin_serializeAnswer (xs : List String)
    (hp : ∀ s ∈ xs, ∀ c ∈ s.data, PlainChar c) : '\x60' ∉ (serializeAnswer xs).data := by
  intro h
  rw [show (serializeAnswer xs).data = '\x7b' :: '"' :: 'A' :: 'n' :: 's' :: 'w' :: 'e' :: 'r' ::
    '"' :: ':' :: ' ' :: '[' :: (quoteElems xs ++ ']' :: '\x7d' :: []) from rfl] at h
  simp only [List.mem_cons, List.mem_append] at h
  rcases h with h | h | h | h | h | h | h | h | h | h | h | h | h | h
  all_goals first
    | exact absurd h (by decide)
    | exact tick_notin_quoteElems xs hp h

/-- The serialized answer has no surrounding whitespace to strip. -/
theorem serializeAnswer_strip (xs : List String) :
    pyStripL (serializeAnswer xs).data = (serializeAnswer xs).data := by
  have hdata : (serializeAnswer xs).data =
      ('\x7b' :: '"' :: 'A' :: 'n' :: 's' :: 'w' :: 'e' :: 'r' :: '"' :: ':' :: ' ' :: '[' ::
        (quoteElems xs ++ [']'])) ++ ['\x7d'] := by
    rw [show (serializeAnswer xs).data = '\x7b' :: '"' :: 'A' :: 'n' :: 's' :: 'w' :: 'e' :: 'r' ::
      '"' :: ':' :: ' ' :: '[' :: (quoteElems xs ++ ']' :: '\x7d' :: []) from rfl]
    simp [List.cons_append, List.append_assoc]
  apply pyStripL_eq_self
  · intro c hc
    rw [show (serializeAnswer xs).data.head? = some '\x7b' from rfl] at hc
    rw [show c = '\x7b' from (Option.some.injEq _ _ ▸ hc).symm]
    decide
  · intro c hc
    rw [hdata, List.getLast?_append] at hc
    rw [show ((['\x7d'] : List Char).getLast?.or
      (('\x7b' :: '"' :: 'A' :: 'n' :: 's' :: 'w' :: 'e' :: 'r' :: '"' :: ':' :: ' ' :: '[' ::
        (quoteElems xs ++ [']'])).getLast?)) = some '\x7d' from rfl] at hc
    rw [show c = '\x7d' from (Option.some.injEq _ _ ▸ hc).symm]
    decide

/-- `_clean_response` is the identity on the serialized answer: no
surrounding whitespace and no backticks. -/
theorem clean_serializeAnswer (xs : List String)
    (hp : ∀ s ∈ xs, ∀ c ∈ s.data, PlainChar c) :
    clean_response (serializeAnswer xs) = serializeAnswer xs := by
  unfold clean_response
  rw [serializeAnswer_strip xs,
    replaceAll_eq_self [] (show '\x60' ∈ "```json".data from by decide)
      (tick_notin_serializeAnswer xs hp),
    replaceAll_eq_self [] (show '\x60' ∈ "```".data from by decide)
      (tick_notin_serializeAnswer xs hp)]

/-- Extracting the strings back out of the mapped list. -/
theorem optionStrList_map_str (xs : List String) :
    optionStrList (xs.map Json.str) = some xs := by
  induction xs with
  | nil => rfl
  | cons x xs ih => simp [List.map_cons, optionStrList, ih]

/-- `"\n".join` on a decoded list of strings is `intercalate`. -/
theorem strJoinNl_map_str (xs : List String) :
    strJoinNl (Json.arr (xs.map Json.str)) = some (String.intercalate "\n" xs) := by
  rw [show strJoinNl (Json.arr (xs.map Json.str)) =
    (optionStrList (xs.map Json.str)).map (String.intercalate "\n") from rfl]
  rw [optionStrList_map_str]
  rfl

/-- The `try` body on a response that decodes to a single-key `Answer`
object with a truthy, joinable value. -/
theorem tryAnswerBody_obj (content : String) (v : Json) (joined : String)
    (hparse : pyJsonLoads (clean_response content) = some (Json.obj [("Answer", v)]))
    (hfalsy : pyFalsy v = false) (hjoin : strJoinNl v = some joined) :
    tryAnswerBody (Except.ok (completionOf content)) =
      Except.ok (some (pyStrip joined)) := by
  rw [show tryAnswerBody (Except.ok (completionOf content)) =
    (match pyJsonLoads (clean_response content) with
      | none => Except.error PyExc.jsonDecodeError
      | some answer_json =>
        match answer_json with
        | Json.obj kvs =>
          let answer_list := (lookupLast kvs "Answer").getD (Json.arr [])
          if pyFalsy answer_list then Except.ok none
          else
            match strJoinNl answer_list with
            | none => Except.error PyExc.typeError
            | some joined => Except.ok (some (pyStrip joined))
        | _ => Except.error PyExc.attributeError) from rfl]
  rw [hparse]
  show (let answer_list := (lookupLast [("Answer", v)] "Answer").getD (Json.arr [])
    if pyFalsy answer_list then Except.ok none
    else
      match strJoinNl answer_list with
      | none => Except.error PyExc.typeError
      | some joined => Except.ok (some (pyStrip joined))) =
    Except.ok (some (pyStrip joined))
  rw [show (lookupLast [("Answer", v)] "Answer").getD (Json.arr []) = v from by
    simp [lookupLast]]
  simp only [hfalsy, Bool.false_eq_true, if_false]
  rw [hjoin]

/-- C1: for every well-formed gateway response carrying a non-empty list
of plain strings in its `Answer` field, `answer_question` returns the
strings joined with newline separators and stripped. -/
theorem C1_wellformed_answer (t : DoubaoTiku) (now : ℚ) (q : String) (img : Option String)
    (xs : List String) (hne : xs ≠ [])
    (hp : ∀ s ∈ xs, ∀ c ∈ s.data, PlainChar c) :
    (t.answer_question (constGateway (serializeAnswer xs)) now q img).1 =
      some (pyStrip (String.intercalate "\n" xs)) := by
  rw [show (t.answer_question (constGateway (serializeAnswer xs)) now q img).1 =
    (match tryAnswerBody (Except.ok (completionOf (serializeAnswer xs))) with
      | Except.ok v => v
      | Except.error _ => none) from rfl]
  rw [tryAnswerBody_obj (serializeAnswer xs) (Json.arr (xs.map Json.str))
    (String.intercalate "\n" xs)
    (by rw [clean_serializeAnswer xs hp]; exact pyJsonLoads_serializeAnswer xs hp)
    (by
      show (xs.map Json.str).isEmpty = false
      rw [List.isEmpty_eq_false, Ne, List.map_eq_nil_iff]
      exact hne)
    (strJoinNl_map_str xs)]

/-- Witness for C1 at the spec's own example `["a", "b"]`. -/
theorem C1_wellformed_answer_witness :
    (tiku0.answer_question (constGateway (serializeAnswer ["a", "b"])) 0 "q" none).1 =
      some "a\nb" := by
  rw [C1_wellformed_answer tiku0 0 "q" none ["a", "b"] (by decide) (by decide)]
  decide
